import Mathlib

/-!
Shallow embedding of `windpowerlib/power_curves.py`.

Curves are modelled as lists of `(wind_speed, value)` pairs over `ℚ`
(the Python code works over floats; none of the properties below depends
on float rounding, and the one genuinely floating-point phenomenon —
NaN from a degenerate standard deviation — is modelled with `Option ℚ`,
`none` standing for NaN).

Python exceptions are modelled by the `PyErr` type and `Except`. The
`while` loop of `smooth_power_curve` (lines 82-87) is embedded as the
fuel-indexed `extendLoop`; `extendLoop step fuel c = none` means the
loop has not yet exited after `fuel` iterations, so
`∀ fuel, extendLoop step fuel c = none` states that the loop never
terminates, and `smooth_power_curve` then returns `.ok none` ("still
running") for every fuel.

`tools.gaussian_distribution` lives in a module that is not part of the
sources under verification; following the spec, the Gaussian kernel is
therefore a parameter `gauss : ℚ → ℚ → ℚ → Option ℚ` (argument order as
in the call on lines 102-104: offset, standard deviation, mean), with
`none` standing for the NaN the density produces when the standard
deviation is 0.
-/

/-- The Python exceptions that `power_curves.py` can raise:
`TypeError` (lines 170, 176), `ValueError` (lines 70, 190),
`AttributeError` (calling `.set_index` on a `dict`, line 180), and
`UnboundLocalError` (using `normalized_standard_deviation` when no
dispatch branch assigned it, line 95). -/
inductive PyErr
  | typeError
  | valueError
  | attributeError
  | unboundLocal
deriving DecidableEq

instance {ε α : Type} [DecidableEq ε] [DecidableEq α] : DecidableEq (Except ε α) := fun a b =>
  match a, b with
  | .ok x, .ok y =>
    if h : x = y then .isTrue (by rw [h]) else .isFalse (by simp [h])
  | .error x, .error y =>
    if h : x = y then .isTrue (by rw [h]) else .isFalse (by simp [h])
  | .ok _, .error _ => .isFalse (by simp)
  | .error _, .ok _ => .isFalse (by simp)

/-- The shapes the `wind_farm_efficiency` argument of
`wake_losses_to_power_curve` can take: a Python float, a Python `dict`
of wind speed to efficiency, a `pd.DataFrame` with `wind_speed` and
`efficiency` columns, or `None` (the default). -/
inductive FarmEff
  | flt (e : ℚ)
  | dict (d : List (ℚ × ℚ))
  | df (d : List (ℚ × ℚ))
  | noneVal
deriving DecidableEq

/-- Look a key up in an association list of `(wind_speed, value)` pairs
(the rows of a `wind_speed`-indexed pandas object). -/
def lookupQ (x : ℚ) : List (ℚ × ℚ) → Option ℚ
  | [] => none
  | (a, b) :: t => if x = a then some b else lookupQ x t

/-- Insert into a sorted list without duplicating an existing element. -/
def insertSorted (x : ℚ) : List ℚ → List ℚ
  | [] => [x]
  | y :: ys =>
    if x < y then x :: y :: ys
    else if x = y then y :: ys
    else y :: insertSorted x ys

/-- Sorted union of wind-speed keys: the index produced by
`pd.concat([...], axis=1)` (outer join) of two `wind_speed`-indexed
frames, which is the sorted union of the two indexes. -/
def unionSorted (xs : List ℚ) : List ℚ := xs.foldr insertSorted []

/-- Embedding of `Series.interpolate(method='index')` at an index value
`x` where the efficiency series is NaN, for a series whose defined
entries are exactly the rows of `eff` (sorted, distinct wind speeds):
 * no defined entry below `x`: the leading NaN is left in place;
 * defined entries on both sides: linear interpolation **on the index
   values** (the wind speeds), weighted by actual wind-speed distance;
 * defined entries only below `x`: pandas pads a trailing NaN with the
   last defined value. -/
def interpGapQ (eff : List (ℚ × ℚ)) (x : ℚ) : Option ℚ :=
  match (eff.filter (fun r => r.1 < x)).getLast?, (eff.filter (fun r => x < r.1)).head? with
  | none, _ => none
  | some (x0, y0), some (x1, y1) => some (y0 + (x - x0) * (y1 - y0) / (x1 - x0))
  | some (_, y0), none => some y0

/-- The efficiency column after `interpolate(method='index')`:
defined rows keep their value, NaN rows are filled by `interpGapQ`. -/
def effInterpAt (eff : List (ℚ × ℚ)) (x : ℚ) : Option ℚ :=
  match lookupQ x eff with
  | some y => some y
  | none => interpGapQ eff x

/-- Embedding of the `wind_efficiency_curve` branch of
`wake_losses_to_power_curve` (lines 179-188): align the power curve and
the efficiency frame on the sorted union of their wind speeds,
interpolate the efficiency column with `method='index'`, multiply
power by efficiency, and drop the rows where the product is NaN. -/
def windEffReduce (pc eff : List (ℚ × ℚ)) : List (ℚ × ℚ) :=
  let idx := unionSorted (pc.map (·.1) ++ eff.map (·.1))
  idx.filterMap (fun x =>
    match lookupQ x pc, effInterpAt eff x with
    | some p, some e => some (x, p * e)
    | _, _ => none)

/-- Embedding of `wake_losses_to_power_curve` (lines 128-194).
The input curve is given as the two parallel lists the Python function
receives. A `dict` efficiency passes the `isinstance` check of
lines 174-175 but then hits `wind_farm_efficiency.set_index(...)` on
line 180, which raises `AttributeError` since dicts have no
`set_index` method. -/
def wake_losses_to_power_curve (ws pv : List ℚ) (method : String) (eff : FarmEff) :
    Except PyErr (List (ℚ × ℚ)) :=
  if method = "constant_efficiency" then
    match eff with
    | .flt e => .ok (ws.zip (pv.map (fun p => p * e)))
    | _ => .error .typeError
  else if method = "wind_efficiency_curve" then
    match eff with
    | .df d => .ok (windEffReduce (ws.zip pv) d)
    | .dict _ => .error .attributeError
    | _ => .error .typeError
  else .error .valueError

/-- Modelled from the spec: "index-based" interpolation read as
**positional/rank** interpolation ("treat entries by their ordinal
position among defined values, not by wind-speed magnitude; gaps are
interpolated as if evenly spaced by rank"). A gap at ordinal position
`i` of the aligned series is filled linearly between the nearest
defined positions `i0 < i < i1`, weighted by rank distance. -/
def interpGapByRank (rows : List (ℚ × Option ℚ)) (i : ℕ) : Option ℚ :=
  let defs : List (ℕ × ℚ) :=
    rows.enum.filterMap (fun p => p.2.2.map (fun y => (p.1, y)))
  match (defs.filter (fun r => r.1 < i)).getLast?, (defs.filter (fun r => i < r.1)).head? with
  | none, _ => none
  | some (i0, y0), some (i1, y1) =>
      some (y0 + ((i : ℚ) - (i0 : ℚ)) * (y1 - y0) / ((i1 : ℚ) - (i0 : ℚ)))
  | some (_, y0), none => some y0

/-- Modelled from the spec: the `wind_efficiency_curve` reduction as the
spec's words describe it, with rank-based gap filling
(`interpGapByRank`) in place of index-value interpolation. -/
def windEffReduceRank (pc eff : List (ℚ × ℚ)) : List (ℚ × ℚ) :=
  let idx := unionSorted (pc.map (·.1) ++ eff.map (·.1))
  let series := idx.map (fun x => (x, lookupQ x eff))
  series.enum.filterMap (fun p =>
    match lookupQ p.2.1 pc,
        (match p.2.2 with
         | some y => some y
         | none => interpGapByRank series p.1) with
    | some pw, some e => some (p.2.1, pw * e)
    | _, _ => none)

/-- The keyword arguments of `smooth_power_curve` (lines 15-18):
`block_width` (default 0.5), `standard_deviation_method` (default
`'turbulence_intensity'`), `mean_gauss` (default 0), and the optional
`turbulence_intensity` entry of `kwargs` (`none` when absent). -/
structure SmoothCfg where
  block_width : ℚ
  standard_deviation_method : String
  mean_gauss : ℚ
  turbulence_intensity : Option ℚ
deriving DecidableEq

/-- The dispatch on `standard_deviation_method` (lines 65-76). The result
is the value of the Python variable `normalized_standard_deviation`
after the `if/elif` chain: `none` means the variable was never assigned
(the `'Norgaard'` branch is `pass`, and no `else` branch exists), which
in Python surfaces as `UnboundLocalError` at the variable's first use. -/
def specifyNSD (cfg : SmoothCfg) : Except PyErr (Option ℚ) :=
  if cfg.standard_deviation_method = "turbulence_intensity" then
    match cfg.turbulence_intensity with
    | some ti => .ok (some ti)
    | none => .error .valueError
  else if cfg.standard_deviation_method = "Norgaard" then
    .ok none
  else if cfg.standard_deviation_method = "Staffell" then
    .ok (some (1/5))
  else
    .ok none

/-- `power_curve_wind_speeds.values[-1]` — the wind speed of the last
sample of a curve (the curves handled by the code are nonempty; the
default 0 is never reached in the proofs below). -/
def lastSpeed (c : List (ℚ × ℚ)) : ℚ := ((c.getLast?).map (·.1)).getD 0

/-- Line 80: `step = power_curve_wind_speeds.iloc[-5] -
power_curve_wind_speeds.iloc[-6]`, for curves with at least 6 samples
(negative `iloc` counts from the end). -/
def tailStep (c : List (ℚ × ℚ)) : ℚ :=
  let s := c.map (·.1)
  s.getD (s.length - 5) 0 - s.getD (s.length - 6) 0

/-- The `while` loop of lines 82-87, fuel-indexed: while the last wind
speed is below 40, append a sample at `previous + step` with power 0.
`none` means the fuel ran out with the loop still running; since the
code has no guard on `step`, `∀ fuel, extendLoop step fuel c = none`
expresses that the loop never terminates on `c`. -/
def extendLoop (step : ℚ) : ℕ → List (ℚ × ℚ) → Option (List (ℚ × ℚ))
  | 0, c => if lastSpeed c < 40 then none else some c
  | n + 1, c =>
    if lastSpeed c < 40 then extendLoop step n (c ++ [(lastSpeed c + step, 0)])
    else some c

/-- `np.arange(start, stop, step)` for a positive rational step:
`start + i*step` for `0 ≤ i < ⌈(stop-start)/step⌉`. -/
def arange (start stop step : ℚ) : List ℚ :=
  (List.range (⌈(stop - start) / step⌉).toNat).map (fun (i : ℕ) => start + (i : ℚ) * step)

/-- IEEE-style addition on `Option ℚ`: NaN (`none`) absorbs. -/
def optAdd : Option ℚ → Option ℚ → Option ℚ
  | some a, some b => some (a + b)
  | _, _ => none

/-- Python's `sum` over a list of possibly-NaN terms: starts from 0 and
is NaN as soon as one term is NaN. -/
def optSum (l : List (Option ℚ)) : Option ℚ := l.foldl optAdd (some 0)

/-- `np.interp(x, xp, fp, left=0, right=0)` over the `(x, y)` pairs of a
curve with ascending wind speeds: 0 outside the sampled range,
piecewise-linear inside. -/
def npInterp (x : ℚ) : List (ℚ × ℚ) → ℚ
  | [] => 0
  | [(x0, y0)] => if x = x0 then y0 else 0
  | (x0, y0) :: (x1, y1) :: rest =>
    if x < x0 then 0
    else if x ≤ x1 then y0 + (x - x0) * (y1 - y0) / (x1 - x0)
    else npInterp x ((x1, y1) :: rest)

/-- The body of the per-point loop (lines 88-109) at wind speed `v` with
standard deviation `sd`: build the moving block `arange(-15, 15 +
block_width, block_width) + v`, accumulate `block_width * interp(w) *
gauss(v - w, sd, mean)` over the block, and substitute 0 when the sum
is NaN (lines 106-109). -/
def smoothedAt (gauss : ℚ → ℚ → ℚ → Option ℚ) (cfg : SmoothCfg)
    (ext : List (ℚ × ℚ)) (v sd : ℚ) : ℚ :=
  match optSum (((arange (-15) (15 + cfg.block_width) cfg.block_width).map (fun y => y + v)).map
      (fun w => (gauss (v - w) sd cfg.mean_gauss).map
        (fun g => cfg.block_width * npInterp w ext * g))) with
  | none => 0
  | some q => q

/-- The per-point loop over the extended curve. Each iteration first
evaluates `standard_deviation` (lines 94-97), whose right-hand side
reads `normalized_standard_deviation`; when that variable was never
assigned (`nsd = none`) the first iteration raises `UnboundLocalError`.
Line 96 compares the method to `'Staffell'` to add the 0.6 floor. -/
def smoothedValues (gauss : ℚ → ℚ → ℚ → Option ℚ) (nsd : Option ℚ) (cfg : SmoothCfg)
    (ext : List (ℚ × ℚ)) : List (ℚ × ℚ) → Except PyErr (List ℚ)
  | [] => .ok []
  | p :: rest =>
    match nsd with
    | none => .error .unboundLocal
    | some s =>
      let sd := if cfg.standard_deviation_method = "Staffell" then p.1 * s + 3/5 else p.1 * s
      match smoothedValues gauss nsd cfg ext rest with
      | .error e => .error e
      | .ok vs => .ok (smoothedAt gauss cfg ext p.1 sd :: vs)

/-- Embedding of `smooth_power_curve` (lines 15-125): dispatch the
standard-deviation method, extend the curve's tail to 40 m/s (fuel-
indexed; `.ok none` means the while loop is still running after `fuel`
iterations), run the per-point convolution, and pair the extended wind
speeds with the smoothed values (lines 111-115). -/
def smooth_power_curve (gauss : ℚ → ℚ → ℚ → Option ℚ) (fuel : ℕ)
    (curve : List (ℚ × ℚ)) (cfg : SmoothCfg) : Except PyErr (Option (List (ℚ × ℚ))) :=
  match specifyNSD cfg with
  | .error e => .error e
  | .ok nsd =>
    match extendLoop (tailStep curve) fuel curve with
    | none => .ok none
    | some ext =>
      match smoothedValues gauss nsd cfg ext ext with
      | .error e => .error e
      | .ok vals => .ok (some ((ext.map (·.1)).zip vals))

/-- `k` iterations of the tail-extension appends: each new sample sits at
the previous last wind speed plus `step` and has power value 0. -/
def appendK (step : ℚ) (c : List (ℚ × ℚ)) : ℕ → List (ℚ × ℚ)
  | 0 => c
  | k + 1 => appendK step c k ++ [(lastSpeed (appendK step c k) + step, 0)]

/-- A curve whose tail step (`iloc[-5] - iloc[-6]` = 0 - 0) is zero while
its last wind speed is below 40: the extension loop never exits on it. -/
def nonAscCurve : List (ℚ × ℚ) := [(0,1),(0,2),(1,3),(2,4),(3,5),(4,6)]

lemma extendLoop_zero (step : ℚ) (c : List (ℚ × ℚ)) :
    extendLoop step 0 c = if lastSpeed c < 40 then none else some c := rfl

lemma extendLoop_succ (step : ℚ) (n : ℕ) (c : List (ℚ × ℚ)) :
    extendLoop step (n + 1) c =
      if lastSpeed c < 40 then extendLoop step n (c ++ [(lastSpeed c + step, 0)])
      else some c := rfl

lemma lastSpeed_append (c : List (ℚ × ℚ)) (a b : ℚ) : lastSpeed (c ++ [(a, b)]) = a := by
  unfold lastSpeed
  rw [List.getLast?_concat]
  rfl

lemma extendLoop_nonpos (step : ℚ) (hstep : step ≤ 0) :
    ∀ fuel c, lastSpeed c < 40 → extendLoop step fuel c = none := by
  intro fuel
  induction fuel with
  | zero => intro c hc; rw [extendLoop_zero, if_pos hc]
  | succ n ih =>
    intro c hc
    have h2 : lastSpeed (c ++ [(lastSpeed c + step, 0)]) < 40 := by
      rw [lastSpeed_append]; linarith
    rw [extendLoop_succ, if_pos hc, ih _ h2]

lemma extendLoop_total (step : ℚ) :
    ∀ (fuel : ℕ) (c : List (ℚ × ℚ)), (40:ℚ) - lastSpeed c ≤ (fuel : ℚ) * step →
      (extendLoop step fuel c).isSome = true := by
  intro fuel
  induction fuel with
  | zero =>
    intro c hc
    have h40 : ¬ lastSpeed c < 40 := by push_neg; push_cast at hc; linarith
    rw [extendLoop_zero, if_neg h40]
    rfl
  | succ n ih =>
    intro c hc
    rw [extendLoop_succ]
    by_cases h : lastSpeed c < 40
    · rw [if_pos h]
      refine ih _ ?_
      rw [lastSpeed_append]
      push_cast at hc ⊢
      linarith
    · rw [if_neg h]; rfl

lemma appendK_one_shift (step : ℚ) (c : List (ℚ × ℚ)) :
    ∀ k, appendK step (c ++ [(lastSpeed c + step, 0)]) k = appendK step c (k + 1) := by
  intro k
  induction k with
  | zero => rfl
  | succ n ih => simp only [appendK, ih]

lemma extendLoop_appendK (step : ℚ) :
    ∀ fuel c ext, extendLoop step fuel c = some ext → ∃ k, ext = appendK step c k := by
  intro fuel
  induction fuel with
  | zero =>
    intro c ext h
    rw [extendLoop_zero] at h
    by_cases hc : lastSpeed c < 40
    · rw [if_pos hc] at h; exact absurd h (by simp)
    · rw [if_neg hc] at h
      exact ⟨0, (Option.some_inj.mp h).symm⟩
  | succ n ih =>
    intro c ext h
    rw [extendLoop_succ] at h
    by_cases hc : lastSpeed c < 40
    · rw [if_pos hc] at h
      obtain ⟨k, hk⟩ := ih _ _ h
      exact ⟨k + 1, by rw [hk, appendK_one_shift]⟩
    · rw [if_neg hc] at h
      exact ⟨0, (Option.some_inj.mp h).symm⟩

lemma appendK_eq_append (step : ℚ) (c : List (ℚ × ℚ)) :
    ∀ k, ∃ t, appendK step c k = c ++ t := by
  intro k
  induction k with
  | zero => exact ⟨[], by simp [appendK]⟩
  | succ n ih =>
    obtain ⟨t, ht⟩ := ih
    exact ⟨t ++ [(lastSpeed (appendK step c n) + step, 0)], by simp [appendK, ht]⟩

lemma extendLoop_last_bounds (step : ℚ) :
    ∀ fuel c ext, lastSpeed c < 40 + step → extendLoop step fuel c = some ext →
      40 ≤ lastSpeed ext ∧ lastSpeed ext < 40 + step := by
  intro fuel
  induction fuel with
  | zero =>
    intro c ext hc h
    rw [extendLoop_zero] at h
    by_cases h40 : lastSpeed c < 40
    · rw [if_pos h40] at h; exact absurd h (by simp)
    · rw [if_neg h40] at h
      rw [← Option.some_inj.mp h]
      exact ⟨not_lt.mp h40, hc⟩
  | succ n ih =>
    intro c ext hc h
    rw [extendLoop_succ] at h
    by_cases h40 : lastSpeed c < 40
    · rw [if_pos h40] at h
      refine ih _ _ ?_ h
      rw [lastSpeed_append]
      linarith
    · rw [if_neg h40] at h
      rw [← Option.some_inj.mp h]
      exact ⟨not_lt.mp h40, hc⟩

lemma chain_appendK (step : ℚ) (c : List (ℚ × ℚ)) (hstep : 0 < step)
    (hc : List.Chain' (· < ·) (c.map Prod.fst)) :
    ∀ k, List.Chain' (· < ·) ((appendK step c k).map Prod.fst) := by
  intro k
  induction k with
  | zero => exact hc
  | succ n ih =>
    rw [appendK, List.map_append, List.chain'_append]
    refine ⟨ih, List.chain'_singleton _, ?_⟩
    intro x hx y hy
    simp at hy
    have hx2 : Option.map Prod.fst (appendK step c n).getLast? = some x := by
      rw [← List.getLast?_map]
      exact hx
    have hlast : lastSpeed (appendK step c n) = x := by
      simp [lastSpeed, hx2]
    rw [← hy, ← hlast]
    linarith

lemma length_appendK (step : ℚ) (c : List (ℚ × ℚ)) (k : ℕ) :
    c.length ≤ (appendK step c k).length := by
  obtain ⟨t, ht⟩ := appendK_eq_append step c k
  simp [ht]

lemma foldl_optAdd_none : ∀ l : List (Option ℚ), l.foldl optAdd none = none := by
  intro l
  induction l with
  | nil => rfl
  | cons h t ih => simp [optAdd, ih]

lemma optSum_all_none (l : List (Option ℚ)) (hall : ∀ x ∈ l, x = none) (hne : l ≠ []) :
    optSum l = none := by
  match l, hne with
  | x :: t, _ =>
    have hx : x = none := hall x (by simp)
    unfold optSum
    rw [List.foldl_cons, hx]
    exact foldl_optAdd_none t

lemma arange_length (start stop step : ℚ) :
    (arange start stop step).length = (⌈(stop - start) / step⌉).toNat := by
  unfold arange
  rw [List.length_map, List.length_range]

lemma arange_ne_nil (b : ℚ) (hb : 0 < b) : arange (-15) (15 + b) b ≠ [] := by
  have hpos : (0:ℚ) < (15 + b - (-15)) / b := div_pos (by linarith) hb
  have hceil : (0:ℤ) < ⌈(15 + b - (-15)) / b⌉ := Int.ceil_pos.mpr hpos
  have hn : 0 < (arange (-15) (15 + b) b).length := by
    rw [arange_length]; omega
  exact List.ne_nil_of_length_pos hn

lemma smoothedAt_sd_zero (gauss : ℚ → ℚ → ℚ → Option ℚ) (cfg : SmoothCfg)
    (ext : List (ℚ × ℚ)) (v : ℚ) (hb : 0 < cfg.block_width)
    (hg : ∀ x μ, gauss x 0 μ = none) : smoothedAt gauss cfg ext v 0 = 0 := by
  unfold smoothedAt
  have h := optSum_all_none
    (((arange (-15) (15 + cfg.block_width) cfg.block_width).map (fun y => y + v)).map
      (fun w => (gauss (v - w) 0 cfg.mean_gauss).map
        (fun g => cfg.block_width * npInterp w ext * g)))
    (by intro x hx
        simp only [List.mem_map] at hx
        obtain ⟨w, _, hw⟩ := hx
        rw [← hw, hg]
        rfl)
    (by simp only [ne_eq, List.map_eq_nil_iff]
        exact arange_ne_nil _ hb)
  rw [h]

lemma smoothedValues_ok (gauss : ℚ → ℚ → ℚ → Option ℚ) (s : ℚ) (cfg : SmoothCfg)
    (ext : List (ℚ × ℚ)) :
    ∀ l, ∃ vs, smoothedValues gauss (some s) cfg ext l = .ok vs ∧ vs.length = l.length := by
  intro l
  induction l with
  | nil => exact ⟨[], rfl, rfl⟩
  | cons p t ih =>
    obtain ⟨vs, hvs, hlen⟩ := ih
    refine ⟨smoothedAt gauss cfg ext p.1
      (if cfg.standard_deviation_method = "Staffell" then p.1 * s + 3/5 else p.1 * s) :: vs,
      ?_, by simp [hlen]⟩
    unfold smoothedValues
    rw [hvs]

/-- C1 (counterexample): the code does **not** interpolate missing efficiency
entries by rank. At power curve `[(3,100),(4,200),(7,300)]` and efficiency
curve `[(3,1/2),(7,1)]` — non-uniform wind-speed spacing of the defined
samples — the code (`interpolate(method='index')`, which interpolates on
the wind-speed index values) yields efficiency `1/2 + (4-3)/(7-3)·(1/2) =
5/8` at wind speed 4, hence power `125`; rank-based interpolation as the
claim states it (`windEffReduceRank`) would yield the rank midpoint `3/4`,
hence power `150`. -/
theorem C1_cex :
    wake_losses_to_power_curve [3, 4, 7] [100, 200, 300] "wind_efficiency_curve"
        (.df [(3, 1/2), (7, 1)]) = .ok [(3, 50), (4, 125), (7, 300)] ∧
      windEffReduceRank [(3, 100), (4, 200), (7, 300)] [(3, 1/2), (7, 1)] =
        [(3, 50), (4, 150), (7, 300)] := by
  constructor
  · norm_num [wake_losses_to_power_curve, windEffReduce, unionSorted, insertSorted, lookupQ,
      effInterpAt, interpGapQ, List.filterMap_cons, List.find?,
      (show ("wind_efficiency_curve":String) ≠ "constant_efficiency" by decide)]
  · norm_num [windEffReduceRank, unionSorted, insertSorted, lookupQ, interpGapByRank,
      List.filterMap_cons, List.find?, List.enum, List.enumFrom]

/-- C1 (amended): in the `wind_efficiency_curve` strategy an interior gap of
the efficiency curve is filled by linear interpolation **on the wind-speed
values** (pandas `method='index'` interpolates on the index, which is
`wind_speed`): for any wind speeds `a < b < c`, a gap at `b` between defined
efficiencies `e0` at `a` and `e1` at `c` is filled with
`e0 + (b-a)·(e1-e0)/(c-a)`, weighted by actual wind-speed distance, not by
ordinal rank among defined values. -/
theorem C1_amended_distance_weighted (a b c p0 p1 p2 e0 e1 : ℚ) (hab : a < b) (hbc : b < c) :
    wake_losses_to_power_curve [a, b, c] [p0, p1, p2] "wind_efficiency_curve"
        (.df [(a, e0), (c, e1)]) =
      .ok [(a, p0 * e0), (b, p1 * (e0 + (b - a) * (e1 - e0) / (c - a))), (c, p2 * e1)] := by
  have hac : a < c := hab.trans hbc
  norm_num [wake_losses_to_power_curve, windEffReduce, unionSorted, insertSorted, lookupQ,
    effInterpAt, interpGapQ, List.filterMap_cons, List.find?,
    (show ("wind_efficiency_curve":String) ≠ "constant_efficiency" by decide),
    hab, hbc, hac, hab.ne, hab.ne', hbc.ne, hbc.ne', hac.ne, hac.ne',
    hab.asymm, hbc.asymm, hac.asymm]

/-- Witness for `C1_amended_distance_weighted` at `a,b,c = 3,4,7`,
`p = 100,200,300`, `e0 = 1/2`, `e1 = 1`. -/
theorem C1_amended_witness :
    (3:ℚ) < 4 ∧ (4:ℚ) < 7 ∧
      wake_losses_to_power_curve [3, 4, 7] [100, 200, 300] "wind_efficiency_curve"
          (.df [(3, 1/2), (7, 1)]) =
        .ok [(3, 100 * (1/2)), (4, 200 * (1/2 + (4 - 3) * (1 - 1/2) / (7 - 3))), (7, 300 * 1)] :=
  ⟨by decide, by decide,
    C1_amended_distance_weighted 3 4 7 100 200 300 (1/2) 1 (by decide) (by decide)⟩

/-- C2 (counterexample): trailing gaps are **not** dropped. At power curve
`[(3,100),(4,200),(5,300)]` and efficiency curve `[(3,1/2),(4,4/5)]`, wind
speed 5 lies above the efficiency curve's last defined wind speed 4, yet the
returned curve keeps the row: pandas `interpolate` pads the trailing NaN
with the last defined efficiency `4/5`, giving power `300 · 4/5 = 240`. The
claim, as stated, would drop that row and return `[(3,50),(4,160)]`. -/
theorem C2_cex :
    wake_losses_to_power_curve [3, 4, 5] [100, 200, 300] "wind_efficiency_curve"
        (.df [(3, 1/2), (4, 4/5)]) = .ok [(3, 50), (4, 160), (5, 240)] := by
  norm_num [wake_losses_to_power_curve, windEffReduce, unionSorted, insertSorted, lookupQ,
    effInterpAt, interpGapQ, List.filterMap_cons, List.find?,
    (show ("wind_efficiency_curve":String) ≠ "constant_efficiency" by decide)]

/-- C2 (amended): only **leading** gaps (wind speeds below the efficiency
curve's first defined wind speed) are dropped; a **trailing** gap (wind
speed above the last defined wind speed) is kept and receives the last
defined efficiency. For any `a < b`: with efficiency defined only at `b`,
the row at `a` is dropped; with efficiency defined only at `a`, the row at
`b` is kept with efficiency `e`. -/
theorem C2_amended_leading_dropped_trailing_padded (a b p0 p1 e : ℚ) (hab : a < b) :
    wake_losses_to_power_curve [a, b] [p0, p1] "wind_efficiency_curve" (.df [(b, e)]) =
        .ok [(b, p1 * e)] ∧
      wake_losses_to_power_curve [a, b] [p0, p1] "wind_efficiency_curve" (.df [(a, e)]) =
        .ok [(a, p0 * e), (b, p1 * e)] := by
  constructor <;>
    norm_num [wake_losses_to_power_curve, windEffReduce, unionSorted, insertSorted, lookupQ,
      effInterpAt, interpGapQ, List.filterMap_cons, List.find?,
      (show ("wind_efficiency_curve":String) ≠ "constant_efficiency" by decide),
      hab, hab.ne, hab.ne', hab.asymm]

/-- Witness for `C2_amended_leading_dropped_trailing_padded` at
`a,b = 3,4`, `p = 100,200`, `e = 1/2`. -/
theorem C2_amended_witness :
    (3:ℚ) < 4 ∧
      (wake_losses_to_power_curve [3, 4] [100, 200] "wind_efficiency_curve"
          (.df [(4, 1/2)]) = .ok [(4, 200 * (1/2))] ∧
        wake_losses_to_power_curve [3, 4] [100, 200] "wind_efficiency_curve"
          (.df [(3, 1/2)]) = .ok [(3, 100 * (1/2)), (4, 200 * (1/2))]) :=
  ⟨by decide, C2_amended_leading_dropped_trailing_padded 3 4 100 200 (1/2) (by decide)⟩

/-- C3 (code bug): with `standard_deviation_method='Norgaard'` the dispatch
(lines 73-74) is a silent `pass`, so `normalized_standard_deviation` is
never assigned and the first iteration of the per-point loop raises
`UnboundLocalError` (line 95) — neither the published Norgaard formula nor
an immediate "not supported" configuration error. The first conjunct shows
the dispatch itself raises nothing. The curve is a valid power curve
(ascending wind speeds, 6 samples, positive tail step); the statement holds
for every Gaussian kernel and every fuel. -/
theorem C3_norgaard (gauss : ℚ → ℚ → ℚ → Option ℚ) (fuel : ℕ) :
    specifyNSD ⟨1/2, "Norgaard", 0, none⟩ = .ok none ∧
      smooth_power_curve gauss fuel [(1,10),(2,20),(3,30),(4,40),(5,50),(41,60)]
        ⟨1/2, "Norgaard", 0, none⟩ = .error .unboundLocal :=
  ⟨rfl, by cases fuel <;> rfl⟩

/-- C4 (code bug): the tail-extension loop has no guard on `step ≤ 0`. On
`nonAscCurve` (tail step 0, last wind speed 4 < 40) the loop never exits:
for every fuel the loop is still running (`extendLoop = none`) and
`smooth_power_curve` never returns a result and never raises the
`ConfigError` the claim requires — the call diverges. -/
theorem C4_no_step_guard (gauss : ℚ → ℚ → ℚ → Option ℚ) (fuel : ℕ) :
    tailStep nonAscCurve ≤ 0 ∧ lastSpeed nonAscCurve < 40 ∧
      extendLoop (tailStep nonAscCurve) fuel nonAscCurve = none ∧
      smooth_power_curve gauss fuel nonAscCurve ⟨1/2, "turbulence_intensity", 0, some (1/10)⟩ =
        .ok none := by
  have h1 : tailStep nonAscCurve ≤ 0 := by norm_num [tailStep, nonAscCurve]
  have h2 : lastSpeed nonAscCurve < 40 := by norm_num [lastSpeed, nonAscCurve]
  have h3 : extendLoop (tailStep nonAscCurve) fuel nonAscCurve = none :=
    extendLoop_nonpos _ h1 fuel _ h2
  refine ⟨h1, h2, h3, ?_⟩
  simp [smooth_power_curve, specifyNSD, h3]

/-- C5: for a curve with tail step `step > 0` whose last wind speed is below
40, the extension loop terminates (some fuel suffices), and whenever it
exits, the final wind speed lies in `[40, 40 + step)` and the result is the
input curve followed by `k` appended samples, each at the previous wind
speed plus `step` with power value 0 (`appendK`). -/
theorem C5_tail_extension (c : List (ℚ × ℚ)) (step : ℚ)
    (hstep : 0 < step) (hlast : lastSpeed c < 40) :
    (∃ fuel ext, extendLoop step fuel c = some ext) ∧
      ∀ fuel ext, extendLoop step fuel c = some ext →
        40 ≤ lastSpeed ext ∧ lastSpeed ext < 40 + step ∧ ∃ k, ext = appendK step c k := by
  constructor
  · set q : ℚ := (40 - lastSpeed c) / step with hq
    refine ⟨(⌈q⌉).toNat, ?_⟩
    have h1 : q ≤ ((⌈q⌉.toNat : ℕ) : ℚ) := by
      calc q ≤ (⌈q⌉ : ℚ) := Int.le_ceil _
        _ ≤ _ := by exact_mod_cast Int.self_le_toNat _
    have h2 : (40:ℚ) - lastSpeed c ≤ ((⌈q⌉.toNat : ℕ) : ℚ) * step := by
      calc (40:ℚ) - lastSpeed c = q * step := by
            rw [hq, div_mul_cancel₀ _ hstep.ne']
        _ ≤ _ := mul_le_mul_of_nonneg_right h1 hstep.le
    have := extendLoop_total step (⌈q⌉).toNat c h2
    rw [Option.isSome_iff_exists] at this
    exact this
  · intro fuel ext h
    have hb := extendLoop_last_bounds step fuel c ext (by linarith) h
    exact ⟨hb.1, hb.2, extendLoop_appendK step fuel c ext h⟩

/-- Witness for `C5_tail_extension` on the curve with wind speeds
`0,1,2,3,4,5` and tail step 1. -/
theorem C5_witness :
    (0:ℚ) < 1 ∧ lastSpeed [((0:ℚ),(1:ℚ)),(1,2),(2,3),(3,4),(4,5),(5,6)] < 40 ∧
      ((∃ fuel ext, extendLoop 1 fuel [((0:ℚ),(1:ℚ)),(1,2),(2,3),(3,4),(4,5),(5,6)] = some ext) ∧
        ∀ fuel ext, extendLoop 1 fuel [((0:ℚ),(1:ℚ)),(1,2),(2,3),(3,4),(4,5),(5,6)] = some ext →
          40 ≤ lastSpeed ext ∧ lastSpeed ext < 40 + 1 ∧
            ∃ k, ext = appendK 1 [((0:ℚ),(1:ℚ)),(1,2),(2,3),(3,4),(4,5),(5,6)] k) :=
  ⟨by decide, by decide,
    C5_tail_extension [((0:ℚ),(1:ℚ)),(1,2),(2,3),(3,4),(4,5),(5,6)] 1 (by decide) (by decide)⟩

/-- C6 (code bug): a `dict`-shaped `wind_farm_efficiency` passes the
`isinstance` check of lines 174-175, but line 180 then calls
`wind_farm_efficiency.set_index('wind_speed')`, and a Python dict has no
`set_index` method, so the call raises `AttributeError` instead of
returning the reduced power curve the claim (and the function's own
docstring, which allows a Dictionary) promises. -/
theorem C6_dict_raises :
    wake_losses_to_power_curve [3, 4, 5] [100, 200, 300] "wind_efficiency_curve"
      (.dict [(3, 1/2), (5, 1)]) = .error .attributeError := rfl

/-- C7: with `wake_losses_method='constant_efficiency'` and a float
efficiency `e`, the returned curve has the same wind speeds, the same
length, and every power value multiplied by `e`. -/
theorem C7_constant_efficiency (ws pv : List ℚ) (e : ℚ) (hlen : pv.length = ws.length) :
    ∃ res, wake_losses_to_power_curve ws pv "constant_efficiency" (.flt e) = .ok res ∧
      res.map Prod.fst = ws ∧ res.map Prod.snd = pv.map (fun p => p * e) ∧
      res.length = ws.length := by
  refine ⟨ws.zip (pv.map (fun p => p * e)), rfl, ?_, ?_, ?_⟩
  · exact List.map_fst_zip _ _ (by simp [hlen])
  · exact List.map_snd_zip _ _ (by simp [hlen])
  · simp [hlen]

/-- Witness for `C7_constant_efficiency` at the spec's example: input
`[(3,100),(4,200)]` with efficiency `9/10`. -/
theorem C7_witness :
    ([100, 200] : List ℚ).length = ([3, 4] : List ℚ).length ∧
      (∃ res, wake_losses_to_power_curve [3, 4] [100, 200] "constant_efficiency"
            (.flt (9/10)) = .ok res ∧
          res.map Prod.fst = [3, 4] ∧
          res.map Prod.snd = ([100, 200] : List ℚ).map (fun p => p * (9/10)) ∧
          res.length = ([3, 4] : List ℚ).length) :=
  ⟨rfl, C7_constant_efficiency [3, 4] [100, 200] (9/10) rfl⟩

/-- C8: for a curve whose first wind speed is 0, smoothing with the
`turbulence_intensity` method never raises: the standard deviation at the
first point is `0 · t = 0`, every Gaussian term there is NaN (`gauss` is
`none` at standard deviation 0, as the density is undefined), the NaN sum
is replaced by 0 (lines 106-109), and the returned curve's first sample is
`(0, 0)`. Stated for every kernel that is NaN at standard deviation 0,
every positive block width, and every fuel on which the extension loop
exits. -/
theorem C8_zero_speed (gauss : ℚ → ℚ → ℚ → Option ℚ) (fuel : ℕ) (p t b m : ℚ)
    (rest : List (ℚ × ℚ)) (hb : 0 < b)
    (hg : ∀ x μ, gauss x 0 μ = none)
    (hsome : (extendLoop (tailStep ((0, p) :: rest)) fuel ((0, p) :: rest)).isSome = true) :
    ∃ res, smooth_power_curve gauss fuel ((0, p) :: rest) ⟨b, "turbulence_intensity", m, some t⟩ =
        .ok (some res) ∧ res.head? = some (0, 0) := by
  rw [Option.isSome_iff_exists] at hsome
  obtain ⟨ext, hext⟩ := hsome
  obtain ⟨k, hk⟩ := extendLoop_appendK _ _ _ _ hext
  obtain ⟨tail, htail⟩ := appendK_eq_append (tailStep ((0, p) :: rest)) ((0, p) :: rest) k
  have hext2 : ext = (0, p) :: (rest ++ tail) := by rw [hk, htail]; rfl
  subst hext2
  obtain ⟨vs, hvs, hlen⟩ :=
    smoothedValues_ok gauss t ⟨b, "turbulence_intensity", m, some t⟩
      ((0, p) :: (rest ++ tail)) (rest ++ tail)
  have hsv : smoothedValues gauss (some t) ⟨b, "turbulence_intensity", m, some t⟩
      ((0, p) :: (rest ++ tail)) ((0, p) :: (rest ++ tail)) =
      .ok (smoothedAt gauss ⟨b, "turbulence_intensity", m, some t⟩ ((0, p) :: (rest ++ tail)) 0
        (0 * t) :: vs) := by
    simp only [smoothedValues, hvs]
    norm_num [show ("turbulence_intensity" : String) ≠ "Staffell" from by decide]
  have hz : smoothedAt gauss ⟨b, "turbulence_intensity", m, some t⟩
      ((0, p) :: (rest ++ tail)) 0 (0 * t) = 0 := by
    rw [zero_mul]
    exact smoothedAt_sd_zero gauss _ _ _ hb hg
  have hspec : specifyNSD ⟨b, "turbulence_intensity", m, some t⟩ = .ok (some t) := by
    simp [specifyNSD]
  refine ⟨(0, 0) :: ((rest ++ tail).map Prod.fst).zip vs, ?_, rfl⟩
  simp only [smooth_power_curve, hspec, hext, hsv, hz]
  simp

/-- Witness for `C8_zero_speed` on the curve with wind speeds
`0,1,2,3,4,41` (kernel constantly NaN, block width 1/2, fuel 0 — the last
wind speed is already ≥ 40, so the extension loop exits at once). -/
theorem C8_witness :
    (0:ℚ) < 1/2 ∧
      (∀ x μ : ℚ, (fun _ _ _ => (none : Option ℚ)) x 0 μ = none) ∧
      (extendLoop (tailStep ((0, 1) :: [((1:ℚ),(2:ℚ)),(2,3),(3,4),(4,5),(41,6)])) 0
          ((0, 1) :: [((1:ℚ),(2:ℚ)),(2,3),(3,4),(4,5),(41,6)])).isSome = true ∧
      ∃ res, smooth_power_curve (fun _ _ _ => none) 0
            ((0, 1) :: [((1:ℚ),(2:ℚ)),(2,3),(3,4),(4,5),(41,6)])
            ⟨1/2, "turbulence_intensity", 0, some (1/10)⟩ = .ok (some res) ∧
          res.head? = some (0, 0) :=
  ⟨by norm_num, fun x μ => rfl, by rfl,
    C8_zero_speed (fun _ _ _ => none) 0 1 (1/10) (1/2) 0
      [((1:ℚ),(2:ℚ)),(2,3),(3,4),(4,5),(41,6)] (by norm_num) (fun x μ => rfl) (by rfl)⟩

/-- C9: for a valid input curve (strictly ascending wind speeds, at least 6
samples, positive tail step) and a fuel on which the extension loop exits,
smoothing with the `turbulence_intensity` method returns a curve whose
wind speeds are strictly ascending and whose length is at least the input
length. -/
theorem C9_shape (gauss : ℚ → ℚ → ℚ → Option ℚ) (fuel : ℕ) (curve : List (ℚ × ℚ)) (b m t : ℚ)
    (hA : List.Chain' (· < ·) (curve.map Prod.fst))
    (hlen : 6 ≤ curve.length)
    (hstep : 0 < tailStep curve)
    (hfuel : (extendLoop (tailStep curve) fuel curve).isSome = true) :
    ∃ res, smooth_power_curve gauss fuel curve ⟨b, "turbulence_intensity", m, some t⟩ =
        .ok (some res) ∧
      List.Chain' (· < ·) (res.map Prod.fst) ∧ curve.length ≤ res.length := by
  rw [Option.isSome_iff_exists] at hfuel
  obtain ⟨ext, hext⟩ := hfuel
  obtain ⟨k, hk⟩ := extendLoop_appendK _ _ _ _ hext
  obtain ⟨vs, hvs, hvslen⟩ :=
    smoothedValues_ok gauss t ⟨b, "turbulence_intensity", m, some t⟩ ext ext
  have hspec : specifyNSD ⟨b, "turbulence_intensity", m, some t⟩ = .ok (some t) := by
    simp [specifyNSD]
  refine ⟨(ext.map Prod.fst).zip vs, ?_, ?_, ?_⟩
  · simp only [smooth_power_curve, hspec, hext, hvs]
  · have hchain : List.Chain' (· < ·) (ext.map Prod.fst) := by
      rw [hk]; exact chain_appendK _ _ hstep hA k
    have hfst : ((ext.map Prod.fst).zip vs).map Prod.fst = ext.map Prod.fst := by
      apply List.map_fst_zip
      simp [hvslen]
    rw [hfst]; exact hchain
  · have h1 : ((ext.map Prod.fst).zip vs).length = ext.length := by
      rw [List.length_zip, List.length_map, hvslen]
      exact min_self _
    rw [h1, hk]
    exact length_appendK _ _ _

/-- Witness for `C9_shape` on the curve with wind speeds `0,1,2,3,4,41`
(kernel constantly NaN, fuel 0 — the last wind speed is already ≥ 40). -/
theorem C9_witness :
    List.Chain' (· < ·) (([((0:ℚ),(1:ℚ)),(1,2),(2,3),(3,4),(4,5),(41,6)]).map Prod.fst) ∧
      6 ≤ ([((0:ℚ),(1:ℚ)),(1,2),(2,3),(3,4),(4,5),(41,6)] : List (ℚ × ℚ)).length ∧
      0 < tailStep [((0:ℚ),(1:ℚ)),(1,2),(2,3),(3,4),(4,5),(41,6)] ∧
      (extendLoop (tailStep [((0:ℚ),(1:ℚ)),(1,2),(2,3),(3,4),(4,5),(41,6)]) 0
          [((0:ℚ),(1:ℚ)),(1,2),(2,3),(3,4),(4,5),(41,6)]).isSome = true ∧
      ∃ res, smooth_power_curve (fun _ _ _ => none) 0
            [((0:ℚ),(1:ℚ)),(1,2),(2,3),(3,4),(4,5),(41,6)] ⟨1/2, "turbulence_intensity", 0,
              some (1/10)⟩ = .ok (some res) ∧
          List.Chain' (· < ·) (res.map Prod.fst) ∧
          ([((0:ℚ),(1:ℚ)),(1,2),(2,3),(3,4),(4,5),(41,6)] : List (ℚ × ℚ)).length ≤ res.length :=
  ⟨by norm_num [List.chain'_cons], by decide, by norm_num [tailStep], by rfl,
    C9_shape (fun _ _ _ => none) 0 [((0:ℚ),(1:ℚ)),(1,2),(2,3),(3,4),(4,5),(41,6)] (1/2) 0 (1/10)
      (by norm_num [List.chain'_cons]) (by decide) (by norm_num [tailStep]) (by rfl)⟩

/-- C10: for a `standard_deviation_method` outside
`{'turbulence_intensity','Norgaard','Staffell'}`, no branch of the dispatch
raises (the `if/elif` chain has no `else`, first conjunct), and the call
fails later, at the first use of the never-assigned
`normalized_standard_deviation` inside the per-point loop, with
`UnboundLocalError` — provided the extension loop exits with a nonempty
curve, so that the loop body runs at least once. -/
theorem C10_no_dispatch_validation (gauss : ℚ → ℚ → ℚ → Option ℚ) (fuel : ℕ)
    (curve ext : List (ℚ × ℚ)) (cfg : SmoothCfg)
    (hm1 : cfg.standard_deviation_method ≠ "turbulence_intensity")
    (hm2 : cfg.standard_deviation_method ≠ "Norgaard")
    (hm3 : cfg.standard_deviation_method ≠ "Staffell")
    (hrun : extendLoop (tailStep curve) fuel curve = some ext)
    (hne : ext ≠ []) :
    specifyNSD cfg = .ok none ∧
      smooth_power_curve gauss fuel curve cfg = .error .unboundLocal := by
  have h1 : specifyNSD cfg = .ok none := by
    simp [specifyNSD, hm1, hm2, hm3]
  refine ⟨h1, ?_⟩
  obtain ⟨p, tl, rfl⟩ := List.exists_cons_of_ne_nil hne
  simp [smooth_power_curve, h1, hrun, smoothedValues]

/-- Witness for `C10_no_dispatch_validation` with method `"bogus"` on the
curve with wind speeds `1,2,3,4,5,41` (fuel 0 — the last wind speed is
already ≥ 40, so the extension loop exits with the curve itself). -/
theorem C10_witness :
    (("bogus" : String) ≠ "turbulence_intensity" ∧ ("bogus" : String) ≠ "Norgaard" ∧
        ("bogus" : String) ≠ "Staffell") ∧
      extendLoop (tailStep [((1:ℚ),(1:ℚ)),(2,2),(3,3),(4,4),(5,5),(41,6)]) 0
          [((1:ℚ),(1:ℚ)),(2,2),(3,3),(4,4),(5,5),(41,6)] =
        some [((1:ℚ),(1:ℚ)),(2,2),(3,3),(4,4),(5,5),(41,6)] ∧
      ([((1:ℚ),(1:ℚ)),(2,2),(3,3),(4,4),(5,5),(41,6)] : List (ℚ × ℚ)) ≠ [] ∧
      (specifyNSD ⟨1/2, "bogus", 0, none⟩ = .ok none ∧
        smooth_power_curve (fun _ _ _ => none) 0 [((1:ℚ),(1:ℚ)),(2,2),(3,3),(4,4),(5,5),(41,6)]
          ⟨1/2, "bogus", 0, none⟩ = .error .unboundLocal) :=
  ⟨⟨by decide, by decide, by decide⟩, rfl, by decide,
    C10_no_dispatch_validation (fun _ _ _ => none) 0 _ _ ⟨1/2, "bogus", 0, none⟩
      (by decide) (by decide) (by decide) rfl (by decide)⟩
